import Mathlib

/-!
# Event switch (libs/events/events.go)

A shallow embedding of the synchronous pub-sub switch of package `events`
and the properties of registration, removal and publication.

Modelling conventions.

* The embedding is sequential: one goroutine drives the switch.  Every
  `mtx.Lock()/Unlock()` and `mtx.RLock()/RUnlock()` pair of the source brackets
  a registry read or write and is released before the method goes on, so in a
  sequential run the mutex is free at every method entry and at every callback
  call; the mutex itself carries no state in the embedding.
* A Go `EventCallback` is a function value whose body may read and write the
  heap, the switch that holds it included.  Such a value cannot be a Lean
  function stored in the state it transforms, so callback values are the
  elements of a type `EventCallback`, and what calling one does is given by a
  function from callback value, event and world to a result (`Calls`).
  Every definition and theorem is generic in that function.
* A call either returns or panics; in both cases it leaves a world behind.
* `FireEvent` is instrumented with the list of callback calls it made.
-/

namespace Events

/-- The cell of the registry: `type listenCell struct { listenerID string; cb EventCallback }`. -/
structure listenCell (EventCallback : Type) where
  listenerID : String
  cb : EventCallback
deriving DecidableEq, Repr

/-- Modelled from the spec: the lifecycle state kept by `cmn.BaseService`
(package libs/common, whose source is not part of this development); the spec gives
`lifecycle: one of {Created, Running, Stopped}`. -/
inductive Lifecycle where
  | Created
  | Running
  | Stopped
deriving DecidableEq, Repr

/-- Modelled from the spec: `cmn.BaseService`, the service lifecycle primitive embedded
in the switch (package libs/common, whose source is not part of this development).  Only
its lifecycle state is kept. -/
structure BaseService where
  lifecycle : Lifecycle
deriving DecidableEq, Repr

/-- Modelled from the spec: `cmn.NewBaseService`; a service is constructed in state
`Created` and is started by an explicit start call only. -/
def NewBaseService : BaseService :=
  { lifecycle := Lifecycle.Created }

/-- The switch object: `type eventSwitch struct { cmn.BaseService; mtx sync.RWMutex;
listeners []listenCell }` (the mutex carries no state in a sequential run). -/
structure eventSwitch (EventCallback : Type) where
  BaseService : BaseService
  listeners : List (listenCell EventCallback)
deriving DecidableEq, Repr

/-- A value of type `*eventSwitch`: the nil pointer, or the address of the switch
object of the world. -/
inductive Receiver where
  | nil
  | ptr
deriving DecidableEq, Repr

/-- The heap a callback runs against: the switch object and the rest of the program
state (`ext`), for instance the logs the callbacks write. -/
structure World (EventCallback State : Type) where
  evsw : eventSwitch EventCallback
  ext : State
deriving DecidableEq, Repr

/-- How a call ends: it returns, or it panics with a value; both leave a world. -/
inductive Result (Panic W : Type) where
  | returned (w : W)
  | panicked (p : Panic) (w : W)
deriving DecidableEq, Repr

/-- The world a call leaves behind. -/
def Result.world {Panic W : Type} : Result Panic W → W
  | Result.returned w => w
  | Result.panicked _ w => w

/-- The panic value of a call, if it panicked. -/
def Result.panic {Panic W : Type} : Result Panic W → Option Panic
  | Result.returned _ => none
  | Result.panicked p _ => some p

/-- The meaning of the callback values: `calls cb event w` is what the Go call
`cb(event)` does when started in world `w`. -/
abbrev Calls (EventCallback Event State Panic : Type) :=
  EventCallback → Event → World EventCallback State → Result Panic (World EventCallback State)

/-- One executed call `cell.cb(event)` of the loop of `FireEvent`. -/
structure Invocation (EventCallback Event : Type) where
  cell : listenCell EventCallback
  event : Event
deriving DecidableEq, Repr

/-- What a method did: the callback calls it made, in order, and how it ended. -/
structure Outcome (EventCallback Event State Panic : Type) where
  invoked : List (Invocation EventCallback Event)
  result : Result Panic (World EventCallback State)
deriving DecidableEq, Repr

variable {EventCallback Event State Panic : Type}

/-- The pointer of `func NilEventSwitch() EventSwitch { return (*eventSwitch)(nil) }`. -/
def NilEventSwitch : Receiver :=
  Receiver.nil

/-- The object allocated by `NewEventSwitch()`: `listeners: make([]listenCell, 0, 10)`
is the empty slice, and `BaseService` is a fresh `cmn.NewBaseService`.  The returned
pointer is `Receiver.ptr`. -/
def NewEventSwitch : eventSwitch EventCallback :=
  { BaseService := NewBaseService, listeners := [] }

/-- The hook `func (evsw *eventSwitch) OnStart() error { return nil }`: the error it
returns (`none` is Go's nil error) and the outcome on the world. -/
def OnStart (Event Panic : Type) (_evsw : Receiver) (w : World EventCallback State) :
    Option String × Outcome EventCallback Event State Panic :=
  (none, { invoked := [], result := Result.returned w })

/-- The hook `func (evsw *eventSwitch) OnStop() {}`. -/
def OnStop (Event Panic : Type) (_evsw : Receiver) (w : World EventCallback State) :
    Outcome EventCallback Event State Panic :=
  { invoked := [], result := Result.returned w }

/-- The method `AddListener` on a non-nil receiver:
`evsw.listeners = append(evsw.listeners, listenCell{listenerID, cb})`. -/
def AddListener (evsw : eventSwitch EventCallback) (listenerID : String) (cb : EventCallback) :
    eventSwitch EventCallback :=
  { evsw with listeners := evsw.listeners ++ [{ listenerID := listenerID, cb := cb }] }

/-- The loop of `RemoveListener`: starting from `newlisteners`, append every cell whose
`listenerID` differs from the argument. -/
def removeLoop (listenerID : String) :
    List (listenCell EventCallback) → List (listenCell EventCallback) → List (listenCell EventCallback)
  | [], newlisteners => newlisteners
  | cell :: rest, newlisteners =>
    if cell.listenerID ≠ listenerID then
      removeLoop listenerID rest (newlisteners ++ [cell])
    else
      removeLoop listenerID rest newlisteners

/-- The method `RemoveListener` on a non-nil receiver: `newlisteners` starts as
`make([]listenCell, 0, len(evsw.listeners))` (empty), the loop fills it, and it
replaces `evsw.listeners`. -/
def RemoveListener (evsw : eventSwitch EventCallback) (listenerID : String) :
    eventSwitch EventCallback :=
  let newlisteners := removeLoop listenerID evsw.listeners []
  { evsw with listeners := newlisteners }

/-- Go's `make([]listenCell, n)`: `n` zero cells. -/
def make [Inhabited EventCallback] (n : Nat) : List (listenCell EventCallback) :=
  List.replicate n { listenerID := "", cb := default }

/-- Go's `copy(dst, src)`: the first `min(len(dst), len(src))` elements of `dst` are
overwritten by those of `src`. -/
def copy {α : Type} (dst src : List α) : List α :=
  src.take dst.length ++ dst.drop src.length

/-- The loop `for _, cell := range listeners { cell.cb(event) }`: each call runs in the
world the calls before it left; a panic ends the loop. -/
def fireLoop (calls : Calls EventCallback Event State Panic) (event : Event) :
    List (listenCell EventCallback) → World EventCallback State →
      Outcome EventCallback Event State Panic
  | [], w => { invoked := [], result := Result.returned w }
  | cell :: rest, w =>
    match calls cell.cb event w with
    | Result.returned w1 =>
      let o := fireLoop calls event rest w1
      { invoked := { cell := cell, event := event } :: o.invoked, result := o.result }
    | Result.panicked p w1 =>
      { invoked := [{ cell := cell, event := event }], result := Result.panicked p w1 }

/-- The method `FireEvent`: on the nil receiver it returns at once; otherwise it copies
the registry into a private slice and runs the loop over that copy. -/
def FireEvent [Inhabited EventCallback] (calls : Calls EventCallback Event State Panic)
    (evsw : Receiver) (event : Event) (w : World EventCallback State) :
    Outcome EventCallback Event State Panic :=
  match evsw with
  | Receiver.nil => { invoked := [], result := Result.returned w }
  | Receiver.ptr =>
    let listeners := copy (make w.evsw.listeners.length) w.evsw.listeners
    fireLoop calls event listeners w

/-- The world after the callbacks of the cells `cells` ran one after the other on
`event`, starting in `w`: the effects of the calls and nothing else. -/
def runAll (calls : Calls EventCallback Event State Panic) (event : Event)
    (cells : List (listenCell EventCallback)) (w : World EventCallback State) :
    World EventCallback State :=
  cells.foldl (fun w0 cell => (calls cell.cb event w0).world) w

/-- The switch reached from a fresh one by the registrations `regs`, in order. -/
def registerAll (regs : List (String × EventCallback)) : eventSwitch EventCallback :=
  regs.foldl (fun evsw r => AddListener evsw r.1 r.2) NewEventSwitch

/-- The record of the calls `cell.cb(event)` for the cells of a list, in order. -/
def invocations (cells : List (listenCell EventCallback)) (event : Event) :
    List (Invocation EventCallback Event) :=
  cells.map (fun cell => { cell := cell, event := event })

/-- The world `w` with the lifecycle state of the switch set to `s`. -/
def setLifecycle (s : Lifecycle) (w : World EventCallback State) : World EventCallback State :=
  { w with evsw := { w.evsw with BaseService := { lifecycle := s } } }

/-- The result `r` with `f` applied to the world it leaves. -/
def Result.onWorld {W : Type} (f : W → W) : Result Panic W → Result Panic W
  | Result.returned w => Result.returned (f w)
  | Result.panicked p w => Result.panicked p (f w)

/-! ## Lemmas about the loops -/

theorem removeLoop_eq (listenerID : String) (cells acc : List (listenCell EventCallback)) :
    removeLoop listenerID cells acc
      = acc ++ cells.filter (fun cell => decide (cell.listenerID ≠ listenerID)) := by
  induction cells generalizing acc with
  | nil => simp [removeLoop]
  | cons cell rest ih =>
    by_cases h : cell.listenerID = listenerID
    · simp [removeLoop, h, ih]
    · simp [removeLoop, h, ih]

theorem RemoveListener_listeners (evsw : eventSwitch EventCallback) (listenerID : String) :
    (RemoveListener evsw listenerID).listeners
      = evsw.listeners.filter (fun cell => decide (cell.listenerID ≠ listenerID)) := by
  simp [RemoveListener, removeLoop_eq]

theorem copy_make [Inhabited EventCallback] (cells : List (listenCell EventCallback)) :
    copy (make cells.length) cells = cells := by
  simp [copy, make]

theorem FireEvent_ptr [Inhabited EventCallback] (calls : Calls EventCallback Event State Panic)
    (event : Event) (w : World EventCallback State) :
    FireEvent calls Receiver.ptr event w = fireLoop calls event w.evsw.listeners w := by
  simp [FireEvent, copy_make]

theorem result_eq_returned {W : Type} (r : Result Panic W) (h : r.panic = none) :
    r = Result.returned r.world := by
  cases r with
  | returned w => rfl
  | panicked p w => simp [Result.panic] at h

theorem runAll_cons (calls : Calls EventCallback Event State Panic) (event : Event)
    (cell : listenCell EventCallback) (rest : List (listenCell EventCallback))
    (w : World EventCallback State) :
    runAll calls event (cell :: rest) w = runAll calls event rest (calls cell.cb event w).world := by
  simp [runAll]

/-- While the calls return, the loop goes on: over `pre ++ rest` it has made the calls of
`pre` and continues with `rest` in the world these calls left. -/
theorem fireLoop_append (calls : Calls EventCallback Event State Panic) (event : Event)
    (rest : List (listenCell EventCallback)) :
    ∀ (pre : List (listenCell EventCallback)) (w : World EventCallback State),
      (∀ pre1 d pre2, pre = pre1 ++ d :: pre2 →
        (calls d.cb event (runAll calls event pre1 w)).panic = none) →
      fireLoop calls event (pre ++ rest) w
        = { invoked := invocations pre event
              ++ (fireLoop calls event rest (runAll calls event pre w)).invoked,
            result := (fireLoop calls event rest (runAll calls event pre w)).result } := by
  intro pre
  induction pre with
  | nil => intro w _; simp [invocations, runAll]
  | cons c pre ih =>
    intro w h
    have hc : (calls c.cb event w).panic = none := by
      have := h [] c pre rfl
      simpa [runAll] using this
    have hrest : ∀ pre1 d pre2, pre = pre1 ++ d :: pre2 →
        (calls d.cb event (runAll calls event pre1 (calls c.cb event w).world)).panic = none := by
      intro pre1 d pre2 hp
      have := h (c :: pre1) d pre2 (by simp [hp])
      simpa [runAll_cons] using this
    have ih1 := ih (calls c.cb event w).world hrest
    rw [List.cons_append, fireLoop, runAll_cons]
    cases hcall : calls c.cb event w with
    | panicked p w1 => rw [hcall] at hc; simp [Result.panic] at hc
    | returned w1 =>
      rw [hcall] at ih1
      simp only [Result.world] at ih1
      simp [ih1, Result.world, invocations]

/-- When no call of this run panics (each call taken in the world the calls before it
left), the loop calls every cell once, in order, and returns in the world the calls
left. -/
theorem fireLoop_run_return (calls : Calls EventCallback Event State Panic) (event : Event)
    (cells : List (listenCell EventCallback)) (w : World EventCallback State)
    (h : ∀ pre1 d pre2, cells = pre1 ++ d :: pre2 →
      (calls d.cb event (runAll calls event pre1 w)).panic = none) :
    fireLoop calls event cells w
      = { invoked := invocations cells event,
          result := Result.returned (runAll calls event cells w) } := by
  have key := fireLoop_append calls event [] cells w h
  simpa [fireLoop] using key

/-- The first call of the loop is the call of the first cell, whatever it does. -/
theorem fireLoop_invoked_head (calls : Calls EventCallback Event State Panic) (event : Event)
    (c : listenCell EventCallback) (rest : List (listenCell EventCallback))
    (w : World EventCallback State) :
    (fireLoop calls event (c :: rest) w).invoked.head? = some { cell := c, event := event } := by
  rw [fireLoop]
  cases calls c.cb event w <;> rfl

/-- When no call panics, the loop calls every cell once, in order, and returns in the
world the calls left. -/
theorem fireLoop_all_return (calls : Calls EventCallback Event State Panic) (event : Event)
    (cells : List (listenCell EventCallback)) (w : World EventCallback State)
    (h : ∀ d ∈ cells, ∀ w0, (calls d.cb event w0).panic = none) :
    fireLoop calls event cells w
      = { invoked := invocations cells event,
          result := Result.returned (runAll calls event cells w) } := by
  have key := fireLoop_append calls event [] cells w (by
    intro pre1 d pre2 hp
    exact h d (by simp [hp]) _)
  simpa [fireLoop] using key

theorem registerFrom_listeners (regs : List (String × EventCallback))
    (evsw : eventSwitch EventCallback) :
    (regs.foldl (fun s r => AddListener s r.1 r.2) evsw).listeners
      = evsw.listeners ++ regs.map (fun r => { listenerID := r.1, cb := r.2 }) := by
  induction regs generalizing evsw with
  | nil => simp
  | cons r rest ih =>
    rw [List.foldl_cons, ih]
    simp [AddListener]

theorem registerAll_listeners (regs : List (String × EventCallback)) :
    (registerAll regs).listeners = regs.map (fun r => { listenerID := r.1, cb := r.2 }) := by
  simp [registerAll, registerFrom_listeners, NewEventSwitch]

/-- Whatever the callbacks do, the calls the loop makes are those of the first cells of
the list it ranges over, in order. -/
theorem fireLoop_invoked_take (calls : Calls EventCallback Event State Panic) (event : Event) :
    ∀ (cells : List (listenCell EventCallback)) (w : World EventCallback State),
      ∃ n, n ≤ cells.length ∧
        (fireLoop calls event cells w).invoked = invocations (cells.take n) event := by
  intro cells
  induction cells with
  | nil => intro w; exact ⟨0, by simp, by simp [fireLoop, invocations]⟩
  | cons c rest ih =>
    intro w
    rw [fireLoop]
    cases hcall : calls c.cb event w with
    | panicked p w1 => exact ⟨1, by simp, by simp [invocations]⟩
    | returned w1 =>
      obtain ⟨n, hn, hinv⟩ := ih w1
      exact ⟨n + 1, by simpa using hn, by simp [hinv, invocations]⟩

theorem fireLoop_invoked_mem (calls : Calls EventCallback Event State Panic) (event : Event)
    (cells : List (listenCell EventCallback)) (w : World EventCallback State)
    (i : Invocation EventCallback Event) (hi : i ∈ (fireLoop calls event cells w).invoked) :
    i.cell ∈ cells ∧ i.event = event := by
  obtain ⟨n, _, hinv⟩ := fireLoop_invoked_take calls event cells w
  rw [hinv, invocations, List.mem_map] at hi
  obtain ⟨c, hc, rfl⟩ := hi
  exact ⟨List.mem_of_mem_take hc, rfl⟩

/-- A panic of the loop is the panic of one of the calls it made: the loop raises none
of its own and passes the value on unchanged. -/
theorem fireLoop_panic_origin (calls : Calls EventCallback Event State Panic) (event : Event)
    (p : Panic) :
    ∀ (cells : List (listenCell EventCallback)) (w : World EventCallback State),
      (fireLoop calls event cells w).result.panic = some p →
      ∃ cell ∈ cells, ∃ w0, (calls cell.cb event w0).panic = some p := by
  intro cells
  induction cells with
  | nil => intro w h; simp [fireLoop, Result.panic] at h
  | cons c rest ih =>
    intro w h
    rw [fireLoop] at h
    cases hcall : calls c.cb event w with
    | panicked q w1 =>
      rw [hcall] at h
      simp only [Result.panic, Option.some.injEq] at h
      exact ⟨c, by simp, w, by rw [hcall, ← h]; rfl⟩
    | returned w1 =>
      rw [hcall] at h
      obtain ⟨cell, hmem, w0, h0⟩ := ih w1 h
      exact ⟨cell, List.mem_cons_of_mem _ hmem, w0, h0⟩

/-- For callbacks that neither read nor write the lifecycle state, the loop does the same
in every lifecycle state. -/
theorem fireLoop_setLifecycle (calls : Calls EventCallback Event State Panic) (event : Event)
    (s : Lifecycle)
    (hblind : ∀ cb ev s0 w0,
      calls cb ev (setLifecycle s0 w0) = (calls cb ev w0).onWorld (setLifecycle s0)) :
    ∀ (cells : List (listenCell EventCallback)) (w : World EventCallback State),
      fireLoop calls event cells (setLifecycle s w)
        = { invoked := (fireLoop calls event cells w).invoked,
            result := (fireLoop calls event cells w).result.onWorld (setLifecycle s) } := by
  intro cells
  induction cells with
  | nil => intro w; simp [fireLoop, Result.onWorld]
  | cons c rest ih =>
    intro w
    rw [fireLoop, fireLoop, hblind]
    cases hcall : calls c.cb event w with
    | panicked p w1 => simp [Result.onWorld]
    | returned w1 => simp [Result.onWorld, ih]

/-! ## Sample callbacks

A small family of callback values over events `Nat`, a log `List Nat` as the rest of the
program state, and panic values `String`. -/

/-- Four callback values: one that logs the event, one that registers `logger` under
`"n"` on the switch, one that removes the identity `"r"` from the switch, one that
panics. -/
inductive Sample where
  | logger
  | adder
  | remover
  | failing
deriving DecidableEq, Repr

instance : Inhabited Sample := ⟨Sample.logger⟩

/-- What calling each sample callback does. -/
def sampleCalls : Calls Sample Nat (List Nat) String
  | Sample.logger, e, w => Result.returned { w with ext := w.ext ++ [e] }
  | Sample.adder, _, w => Result.returned { w with evsw := AddListener w.evsw "n" Sample.logger }
  | Sample.remover, _, w => Result.returned { w with evsw := RemoveListener w.evsw "r" }
  | Sample.failing, _, w => Result.panicked "boom" w

/-- A switch with two cells under `"r"` (the first one panics) and two cells under other
identities. -/
def sampleSwitch : eventSwitch Sample :=
  { BaseService := NewBaseService,
    listeners := [⟨"r", Sample.failing⟩, ⟨"a", Sample.logger⟩, ⟨"r", Sample.logger⟩,
      ⟨"b", Sample.adder⟩] }

/-- A switch with two cells, under `"a"` and `"b"`. -/
def smallSwitch : eventSwitch Sample :=
  { BaseService := NewBaseService,
    listeners := [⟨"a", Sample.logger⟩, ⟨"b", Sample.adder⟩] }

/-- Three more callback values: one that logs the event, one that registers the
panicking callback `failing` under `"f"` on the switch, and `failing` itself. -/
inductive Mutator where
  | logger
  | adderF
  | failing
deriving DecidableEq, Repr

instance : Inhabited Mutator := ⟨Mutator.logger⟩

/-- What calling each of these does. -/
def mutatorCalls : Calls Mutator Nat (List Nat) String
  | Mutator.logger, e, w => Result.returned { w with ext := w.ext ++ [e] }
  | Mutator.adderF, _, w =>
    Result.returned { w with evsw := AddListener w.evsw "f" Mutator.failing }
  | Mutator.failing, _, w => Result.panicked "boom" w

/-- A switch whose first callback registers a panicking listener. -/
def lateFailSwitch : eventSwitch Mutator :=
  { BaseService := NewBaseService,
    listeners := [⟨"a", Mutator.adderF⟩, ⟨"l", Mutator.logger⟩] }

/-- A switch whose first cell registers a listener and whose second cell removes its own
identity `"r"`. -/
def mutatingSwitch : eventSwitch Sample :=
  { BaseService := NewBaseService,
    listeners := [⟨"a", Sample.adder⟩, ⟨"r", Sample.remover⟩, ⟨"l", Sample.logger⟩] }

/-- A switch whose second cell panics. -/
def failingSwitch : eventSwitch Sample :=
  { BaseService := NewBaseService,
    listeners := [⟨"a", Sample.logger⟩, ⟨"f", Sample.failing⟩, ⟨"b", Sample.logger⟩] }

/-- The two callbacks of the scenario: each one appends the event it receives to its
own log. -/
inductive Logger where
  | x
  | y
deriving DecidableEq, Repr

instance : Inhabited Logger := ⟨Logger.x⟩

/-- The logs of the two callbacks of the scenario. -/
structure Logs (Event : Type) where
  x : List Event
  y : List Event
deriving DecidableEq, Repr

/-- What calling `x` and `y` does: append the event to the own log, and return. -/
def loggerCalls : Calls Logger Event (Logs Event) String
  | Logger.x, e, w => Result.returned { w with ext := { w.ext with x := w.ext.x ++ [e] } }
  | Logger.y, e, w => Result.returned { w with ext := { w.ext with y := w.ext.y ++ [e] } }

/-- The start of the scenario: a fresh switch from `NewEventSwitch` and two empty logs. -/
def scenarioStart : World Logger (Logs Event) :=
  { evsw := NewEventSwitch, ext := { x := [], y := [] } }

/-- The first step: `FireEvent(A)` on the fresh switch. -/
def scenarioFireA (A : Event) : Outcome Logger Event (Logs Event) String :=
  FireEvent loggerCalls Receiver.ptr A scenarioStart

/-- The next steps: `AddListener("x", x)` and then `FireEvent(B)`. -/
def scenarioFireB (A B : Event) : Outcome Logger Event (Logs Event) String :=
  FireEvent loggerCalls Receiver.ptr B
    { (scenarioFireA A).result.world with
      evsw := AddListener (scenarioFireA A).result.world.evsw "x" Logger.x }

/-- The last steps: `AddListener("y", y)` and then `FireEvent(C)`. -/
def scenarioFireC (A B C : Event) : Outcome Logger Event (Logs Event) String :=
  FireEvent loggerCalls Receiver.ptr C
    { (scenarioFireB A B).result.world with
      evsw := AddListener (scenarioFireB A B).result.world.evsw "y" Logger.y }

/-! ## Registration and publication -/

/-- C1: on a switch built by `NewEventSwitch`, after any finite sequence of
`AddListener(id_i, cb_i)` calls (ids repeated or not), one `FireEvent(e)` in which no
callback panics makes exactly the calls `cb_1(e), ..., cb_n(e)`, one per registration and
in registration order: as many calls as registrations, each with argument `e`, and
`FireEvent` returns.  (That the callbacks leave the switch alone is not needed.) -/
theorem c1_registration_visibility [Inhabited EventCallback]
    (calls : Calls EventCallback Event State Panic) (regs : List (String × EventCallback))
    (e : Event) (x : State)
    (hreturn : ∀ r ∈ regs, ∀ w, (calls r.2 e w).panic = none) :
    (FireEvent calls Receiver.ptr e { evsw := registerAll regs, ext := x }).invoked
        = regs.map (fun r => { cell := { listenerID := r.1, cb := r.2 }, event := e }) ∧
      (FireEvent calls Receiver.ptr e { evsw := registerAll regs, ext := x }).invoked.length
        = regs.length ∧
      (∀ i ∈ (FireEvent calls Receiver.ptr e { evsw := registerAll regs, ext := x }).invoked,
        i.event = e) ∧
      (FireEvent calls Receiver.ptr e { evsw := registerAll regs, ext := x }).result.panic
        = none := by
  have hcells : ∀ d ∈ (registerAll regs).listeners, ∀ w0, (calls d.cb e w0).panic = none := by
    intro d hd w0
    rw [registerAll_listeners, List.mem_map] at hd
    obtain ⟨r, hr, rfl⟩ := hd
    exact hreturn r hr w0
  have hfire := fireLoop_all_return calls e (registerAll regs).listeners
    { evsw := registerAll regs, ext := x } hcells
  rw [FireEvent_ptr, hfire]
  simp only [invocations, registerAll_listeners, List.map_map]
  refine ⟨rfl, by simp, ?_, rfl⟩
  intro i hi
  rw [List.mem_map] at hi
  obtain ⟨r, _, rfl⟩ := hi
  rfl

/-- C1 at three registrations, two of them under one identity. -/
theorem c1_registration_visibility_witness :
    (∀ r ∈ [("x", Sample.logger), ("y", Sample.adder), ("x", Sample.logger)],
        ∀ w, (sampleCalls r.2 7 w).panic = none) ∧
      ((FireEvent sampleCalls Receiver.ptr 7
          { evsw := registerAll [("x", Sample.logger), ("y", Sample.adder), ("x", Sample.logger)],
            ext := [] }).invoked
        = [("x", Sample.logger), ("y", Sample.adder), ("x", Sample.logger)].map
            (fun r => { cell := { listenerID := r.1, cb := r.2 }, event := 7 }) ∧
      (FireEvent sampleCalls Receiver.ptr 7
          { evsw := registerAll [("x", Sample.logger), ("y", Sample.adder), ("x", Sample.logger)],
            ext := [] }).invoked.length
        = [("x", Sample.logger), ("y", Sample.adder), ("x", Sample.logger)].length ∧
      (∀ i ∈ (FireEvent sampleCalls Receiver.ptr 7
          { evsw := registerAll [("x", Sample.logger), ("y", Sample.adder), ("x", Sample.logger)],
            ext := [] }).invoked, i.event = 7) ∧
      (FireEvent sampleCalls Receiver.ptr 7
          { evsw := registerAll [("x", Sample.logger), ("y", Sample.adder), ("x", Sample.logger)],
            ext := [] }).result.panic = none) :=
  have h : ∀ r ∈ [("x", Sample.logger), ("y", Sample.adder), ("x", Sample.logger)],
      ∀ w, (sampleCalls r.2 7 w).panic = none := by
    intro r hr w
    simp only [List.mem_cons, List.mem_singleton, List.not_mem_nil, or_false] at hr
    rcases hr with rfl | rfl | rfl <;> rfl
  ⟨h, c1_registration_visibility sampleCalls _ 7 [] h⟩

/-! ## Removal -/

/-- C2: `RemoveListener(id)` leaves the registry with exactly the cells of identity `id`
deleted: the new registry is the old one filtered on `listenerID ≠ id`, so no cell of
identity `id` remains, every cell of another identity remains, any selection of cells of
other identities reads the same before and after (same multiplicity, same relative
order), and the embedded service is untouched.  Hence a following `FireEvent` calls no
cell of identity `id`, and, when the remaining callbacks do not panic, calls exactly the
cells of the other identities, in order. -/
theorem c2_remove_listener [Inhabited EventCallback]
    (calls : Calls EventCallback Event State Panic) (evsw : eventSwitch EventCallback)
    (id : String) (e : Event) (x : State) :
    (RemoveListener evsw id).listeners
        = evsw.listeners.filter (fun cell => decide (cell.listenerID ≠ id)) ∧
      (∀ cell ∈ (RemoveListener evsw id).listeners, cell.listenerID ≠ id) ∧
      (∀ cell ∈ evsw.listeners, cell.listenerID ≠ id →
        cell ∈ (RemoveListener evsw id).listeners) ∧
      (∀ keep : listenCell EventCallback → Bool,
        (∀ cell, keep cell = true → cell.listenerID ≠ id) →
        (RemoveListener evsw id).listeners.filter keep = evsw.listeners.filter keep) ∧
      (RemoveListener evsw id).listeners.Sublist evsw.listeners ∧
      (RemoveListener evsw id).BaseService = evsw.BaseService ∧
      (∀ i ∈ (FireEvent calls Receiver.ptr e
            { evsw := RemoveListener evsw id, ext := x }).invoked, i.cell.listenerID ≠ id) ∧
      ((∀ cell ∈ evsw.listeners, cell.listenerID ≠ id → ∀ w, (calls cell.cb e w).panic = none) →
        (FireEvent calls Receiver.ptr e { evsw := RemoveListener evsw id, ext := x }).invoked
          = invocations (evsw.listeners.filter (fun cell => decide (cell.listenerID ≠ id))) e) := by
  have hL := RemoveListener_listeners evsw id
  refine ⟨hL, ?_, ?_, ?_, ?_, rfl, ?_, ?_⟩
  · intro cell hcell
    rw [hL, List.mem_filter] at hcell
    simpa using hcell.2
  · intro cell hcell hne
    rw [hL, List.mem_filter]
    exact ⟨hcell, by simpa using hne⟩
  · intro keep hkeep
    rw [hL, List.filter_filter]
    apply List.filter_congr
    intro cell _
    cases hk : keep cell with
    | false => simp
    | true => simpa using hkeep cell hk
  · rw [hL]
    exact List.filter_sublist _
  · intro i hi
    rw [FireEvent_ptr] at hi
    have hmem := (fireLoop_invoked_mem calls e _ _ i hi).1
    simp only [hL, List.mem_filter] at hmem
    simpa using hmem.2
  · intro hreturn
    rw [FireEvent_ptr, fireLoop_all_return]
    · simp only [hL]
    · intro d hd w0
      simp only [hL, List.mem_filter] at hd
      exact hreturn d hd.1 (by simpa using hd.2) w0

/-- C2 on a registry with two cells under `"r"` and two under other identities, one of
them a callback that panics under the removed identity. -/
theorem c2_remove_listener_witness :
    (∀ cell ∈ sampleSwitch.listeners,
        cell.listenerID ≠ "r" → ∀ w, (sampleCalls cell.cb 3 w).panic = none) ∧
      (RemoveListener sampleSwitch "r").listeners
        = [⟨"a", Sample.logger⟩, ⟨"b", Sample.adder⟩] ∧
      (FireEvent sampleCalls Receiver.ptr 3
          { evsw := RemoveListener sampleSwitch "r",
            ext := [] }).invoked
        = [⟨⟨"a", Sample.logger⟩, 3⟩, ⟨⟨"b", Sample.adder⟩, 3⟩] :=
  have h : ∀ cell ∈ sampleSwitch.listeners,
      cell.listenerID ≠ "r" → ∀ w, (sampleCalls cell.cb 3 w).panic = none := by
    intro cell hcell hne w
    simp only [sampleSwitch, List.mem_cons, List.mem_singleton, List.not_mem_nil, or_false] at hcell
    rcases hcell with rfl | rfl | rfl | rfl
    · exact absurd rfl hne
    · rfl
    · exact absurd rfl hne
    · rfl
  ⟨h,
    (c2_remove_listener sampleCalls _ "r" 3 []).1.trans (by decide),
    ((c2_remove_listener sampleCalls _ "r" 3 []).2.2.2.2.2.2.2 h).trans (by decide)⟩

/-- C7: when no cell of the registry carries the identity `id` (the empty registry
included), `RemoveListener(id)` leaves the switch as it was: same cells in the same
order, same service state; the method has no failing path. -/
theorem c7_remove_absent (evsw : eventSwitch EventCallback) (id : String)
    (habsent : ∀ cell ∈ evsw.listeners, cell.listenerID ≠ id) :
    RemoveListener evsw id = evsw ∧
      (RemoveListener evsw id).listeners = evsw.listeners := by
  have hL : (RemoveListener evsw id).listeners = evsw.listeners := by
    rw [RemoveListener_listeners, List.filter_eq_self]
    intro cell hcell
    simpa using habsent cell hcell
  refine ⟨?_, hL⟩
  cases evsw with
  | mk b l => simpa [RemoveListener] using hL

/-- C7 on a registry of two cells, and on the fresh switch. -/
theorem c7_remove_absent_witness :
    ((∀ cell ∈ smallSwitch.listeners,
        cell.listenerID ≠ "z") ∧
      RemoveListener smallSwitch "z"
        = smallSwitch) ∧
      RemoveListener (NewEventSwitch : eventSwitch Sample) "z" = NewEventSwitch :=
  ⟨⟨by decide,
      (c7_remove_absent smallSwitch "z"
        (by decide)).1⟩,
    (c7_remove_absent (NewEventSwitch : eventSwitch Sample) "z" (by decide)).1⟩

/-! ## Snapshot isolation and failure -/

/-- C3: when the callbacks that `FireEvent(e)` calls themselves add or remove listeners
on the same switch, and none of these calls panics (each taken in the world the calls
before it left; nothing is asked of callbacks that are not called, of other events or of
other worlds), the calls of that `FireEvent` are exactly the cells of the registry as it
was when `FireEvent` was entered, in order: a cell that was not in it (one added on the
way) is not called, and every cell that was in it (also one removed on the way) is called.
`FireEvent` returns in the world the callbacks left, one after the other: the registry on
return is the one the last callback left.  The next `FireEvent` ranges over that registry:
its calls are first cells of it, in order, starting with its first cell, and all of its
cells when none of the calls of that next run panics. -/
theorem c3_snapshot_isolation [Inhabited EventCallback]
    (calls : Calls EventCallback Event State Panic) (e e2 : Event)
    (w : World EventCallback State)
    (hrun : ∀ pre1 d pre2, w.evsw.listeners = pre1 ++ d :: pre2 →
      (calls d.cb e (runAll calls e pre1 w)).panic = none) :
    (FireEvent calls Receiver.ptr e w).invoked = invocations w.evsw.listeners e ∧
      (∀ cell, cell ∉ w.evsw.listeners →
        ∀ i ∈ (FireEvent calls Receiver.ptr e w).invoked, i.cell ≠ cell) ∧
      (∀ cell ∈ w.evsw.listeners,
        { cell := cell, event := e } ∈ (FireEvent calls Receiver.ptr e w).invoked) ∧
      (FireEvent calls Receiver.ptr e w).result
        = Result.returned (runAll calls e w.evsw.listeners w) ∧
      (∀ pre c, w.evsw.listeners = pre ++ [c] →
        (FireEvent calls Receiver.ptr e w).result.world
          = (calls c.cb e (runAll calls e pre w)).world) ∧
      (∃ n, n ≤ (FireEvent calls Receiver.ptr e w).result.world.evsw.listeners.length ∧
        (FireEvent calls Receiver.ptr e2 (FireEvent calls Receiver.ptr e w).result.world).invoked
          = invocations
              ((FireEvent calls Receiver.ptr e w).result.world.evsw.listeners.take n) e2) ∧
      (∀ c rest, (FireEvent calls Receiver.ptr e w).result.world.evsw.listeners = c :: rest →
        (FireEvent calls Receiver.ptr e2
            (FireEvent calls Receiver.ptr e w).result.world).invoked.head?
          = some { cell := c, event := e2 }) ∧
      ((∀ pre1 d pre2,
          (FireEvent calls Receiver.ptr e w).result.world.evsw.listeners = pre1 ++ d :: pre2 →
          (calls d.cb e2 (runAll calls e2 pre1
            (FireEvent calls Receiver.ptr e w).result.world)).panic = none) →
        (FireEvent calls Receiver.ptr e2 (FireEvent calls Receiver.ptr e w).result.world).invoked
          = invocations (FireEvent calls Receiver.ptr e w).result.world.evsw.listeners e2) := by
  have hfire : FireEvent calls Receiver.ptr e w
      = { invoked := invocations w.evsw.listeners e,
          result := Result.returned (runAll calls e w.evsw.listeners w) } := by
    rw [FireEvent_ptr, fireLoop_run_return calls e _ w hrun]
  refine ⟨by rw [hfire], ?_, ?_, by rw [hfire], ?_, ?_, ?_, ?_⟩
  · intro cell hcell i hi heq
    rw [hfire, invocations, List.mem_map] at hi
    obtain ⟨c, hc, rfl⟩ := hi
    exact hcell (heq ▸ hc)
  · intro cell hcell
    rw [hfire, invocations, List.mem_map]
    exact ⟨cell, hcell, rfl⟩
  · intro pre c hL
    rw [hfire, hL]
    simp [Result.world, runAll]
  · rw [FireEvent_ptr calls e2]
    exact fireLoop_invoked_take calls e2 _ _
  · intro c rest hL
    rw [FireEvent_ptr calls e2, hL]
    exact fireLoop_invoked_head calls e2 c rest _
  · intro hnext
    rw [FireEvent_ptr calls e2, fireLoop_run_return calls e2 _ _ hnext]

/-- C3 on two registries.  In the first the first callback registers `("n", logger)` and
the second removes its own identity `"r"`: all three cells are called, `("n", logger)` is
not; on return the registry holds the addition and not the removed cell, and the next
`FireEvent` calls that registry.  In the second the first callback registers a listener
that panics: both cells are called, the panicking listener is not, `FireEvent` returns with
it in the registry, and the next `FireEvent` reaches it. -/
theorem c3_snapshot_isolation_witness :
    ((∀ pre1 d pre2,
          ({ evsw := mutatingSwitch, ext := [] } : World Sample (List Nat)).evsw.listeners
            = pre1 ++ d :: pre2 →
          (sampleCalls d.cb 1 (runAll sampleCalls 1 pre1
            { evsw := mutatingSwitch, ext := [] })).panic = none) ∧
        (FireEvent sampleCalls Receiver.ptr 1 { evsw := mutatingSwitch, ext := [] }).invoked
          = [⟨⟨"a", Sample.adder⟩, 1⟩, ⟨⟨"r", Sample.remover⟩, 1⟩, ⟨⟨"l", Sample.logger⟩, 1⟩] ∧
        (FireEvent sampleCalls Receiver.ptr 1 { evsw := mutatingSwitch, ext := [] }).result
          = Result.returned
              { evsw := { BaseService := NewBaseService,
                          listeners := [⟨"a", Sample.adder⟩, ⟨"l", Sample.logger⟩,
                            ⟨"n", Sample.logger⟩] },
                ext := [1] } ∧
        (∀ pre1 d pre2,
          (FireEvent sampleCalls Receiver.ptr 1
              { evsw := mutatingSwitch, ext := [] }).result.world.evsw.listeners
            = pre1 ++ d :: pre2 →
          (sampleCalls d.cb 2 (runAll sampleCalls 2 pre1
            (FireEvent sampleCalls Receiver.ptr 1
              { evsw := mutatingSwitch, ext := [] }).result.world)).panic = none) ∧
        (FireEvent sampleCalls Receiver.ptr 2
            (FireEvent sampleCalls Receiver.ptr 1
              { evsw := mutatingSwitch, ext := [] }).result.world).invoked
          = [⟨⟨"a", Sample.adder⟩, 2⟩, ⟨⟨"l", Sample.logger⟩, 2⟩, ⟨⟨"n", Sample.logger⟩, 2⟩]) ∧
      ((∀ pre1 d pre2,
          ({ evsw := lateFailSwitch, ext := [] } : World Mutator (List Nat)).evsw.listeners
            = pre1 ++ d :: pre2 →
          (mutatorCalls d.cb 1 (runAll mutatorCalls 1 pre1
            { evsw := lateFailSwitch, ext := [] })).panic = none) ∧
        (FireEvent mutatorCalls Receiver.ptr 1 { evsw := lateFailSwitch, ext := [] }).invoked
          = [⟨⟨"a", Mutator.adderF⟩, 1⟩, ⟨⟨"l", Mutator.logger⟩, 1⟩] ∧
        (FireEvent mutatorCalls Receiver.ptr 1 { evsw := lateFailSwitch, ext := [] }).result
          = Result.returned
              { evsw := { BaseService := NewBaseService,
                          listeners := [⟨"a", Mutator.adderF⟩, ⟨"l", Mutator.logger⟩,
                            ⟨"f", Mutator.failing⟩] },
                ext := [1] } ∧
        (FireEvent mutatorCalls Receiver.ptr 2
            (FireEvent mutatorCalls Receiver.ptr 1
              { evsw := lateFailSwitch, ext := [] }).result.world).invoked
          = [⟨⟨"a", Mutator.adderF⟩, 2⟩, ⟨⟨"l", Mutator.logger⟩, 2⟩,
              ⟨⟨"f", Mutator.failing⟩, 2⟩]) :=
  have h1 : ∀ pre1 d pre2,
      ({ evsw := mutatingSwitch, ext := [] } : World Sample (List Nat)).evsw.listeners
        = pre1 ++ d :: pre2 →
      (sampleCalls d.cb 1 (runAll sampleCalls 1 pre1
        { evsw := mutatingSwitch, ext := [] })).panic = none := by
    intro pre1 d pre2 h
    rcases pre1 with _ | ⟨a1, _ | ⟨a2, _ | ⟨a3, r⟩⟩⟩
    · simp only [mutatingSwitch, List.nil_append, List.cons.injEq] at h
      obtain ⟨rfl, _⟩ := h
      rfl
    · simp only [mutatingSwitch, List.cons_append, List.nil_append, List.cons.injEq] at h
      obtain ⟨rfl, rfl, _⟩ := h
      rfl
    · simp only [mutatingSwitch, List.cons_append, List.nil_append, List.cons.injEq] at h
      obtain ⟨rfl, rfl, rfl, _⟩ := h
      rfl
    · simp [mutatingSwitch] at h
  have hw1 : (FireEvent sampleCalls Receiver.ptr 1
      { evsw := mutatingSwitch, ext := [] }).result.world
        = { evsw := { BaseService := NewBaseService,
                      listeners := [⟨"a", Sample.adder⟩, ⟨"l", Sample.logger⟩,
                        ⟨"n", Sample.logger⟩] },
            ext := [1] } := by decide
  have h2 : ∀ pre1 d pre2,
      (FireEvent sampleCalls Receiver.ptr 1
          { evsw := mutatingSwitch, ext := [] }).result.world.evsw.listeners
        = pre1 ++ d :: pre2 →
      (sampleCalls d.cb 2 (runAll sampleCalls 2 pre1
        (FireEvent sampleCalls Receiver.ptr 1
          { evsw := mutatingSwitch, ext := [] }).result.world)).panic = none := by
    rw [hw1]
    intro pre1 d pre2 h
    rcases pre1 with _ | ⟨a1, _ | ⟨a2, _ | ⟨a3, r⟩⟩⟩
    · simp only [List.nil_append, List.cons.injEq] at h
      obtain ⟨rfl, _⟩ := h
      rfl
    · simp only [List.cons_append, List.nil_append, List.cons.injEq] at h
      obtain ⟨rfl, rfl, _⟩ := h
      rfl
    · simp only [List.cons_append, List.nil_append, List.cons.injEq] at h
      obtain ⟨rfl, rfl, rfl, _⟩ := h
      rfl
    · simp at h
  have h3 : ∀ pre1 d pre2,
      ({ evsw := lateFailSwitch, ext := [] } : World Mutator (List Nat)).evsw.listeners
        = pre1 ++ d :: pre2 →
      (mutatorCalls d.cb 1 (runAll mutatorCalls 1 pre1
        { evsw := lateFailSwitch, ext := [] })).panic = none := by
    intro pre1 d pre2 h
    rcases pre1 with _ | ⟨a1, _ | ⟨a2, r⟩⟩
    · simp only [lateFailSwitch, List.nil_append, List.cons.injEq] at h
      obtain ⟨rfl, _⟩ := h
      rfl
    · simp only [lateFailSwitch, List.cons_append, List.nil_append, List.cons.injEq] at h
      obtain ⟨rfl, rfl, _⟩ := h
      rfl
    · simp [lateFailSwitch] at h
  ⟨⟨h1,
      (c3_snapshot_isolation sampleCalls 1 2 { evsw := mutatingSwitch, ext := [] } h1).1.trans
        (by decide),
      (c3_snapshot_isolation sampleCalls 1 2
        { evsw := mutatingSwitch, ext := [] } h1).2.2.2.1.trans (by decide),
      h2,
      ((c3_snapshot_isolation sampleCalls 1 2
        { evsw := mutatingSwitch, ext := [] } h1).2.2.2.2.2.2.2 h2).trans (by decide)⟩,
    ⟨h3,
      (c3_snapshot_isolation mutatorCalls 1 2 { evsw := lateFailSwitch, ext := [] } h3).1.trans
        (by decide),
      (c3_snapshot_isolation mutatorCalls 1 2
        { evsw := lateFailSwitch, ext := [] } h3).2.2.2.1.trans (by decide),
      by decide⟩⟩

/-- C4: let the registry be `pre ++ c :: post` where, in this run, no call of `pre` panics
(each in the world the calls before it left) and the call of `c` panics with `p`, leaving
`w1`.  Then `FireEvent(e)` makes exactly the calls of `pre` and then of `c`, in order, none
of `post`, and ends with that same panic `p` in that same world: it is passed on as it is.
Conversely `FireEvent` raises nothing of its own: a panic of `FireEvent` is the panic of the
callback of a registered cell, so when no callback panics `FireEvent` returns, on either
receiver. -/
theorem c4_fail_fast [Inhabited EventCallback]
    (calls : Calls EventCallback Event State Panic) (e : Event)
    (w w1 : World EventCallback State) (pre post : List (listenCell EventCallback))
    (c : listenCell EventCallback) (p : Panic)
    (hcells : w.evsw.listeners = pre ++ c :: post)
    (hpre : ∀ pre1 d pre2, pre = pre1 ++ d :: pre2 →
      (calls d.cb e (runAll calls e pre1 w)).panic = none)
    (hc : calls c.cb e (runAll calls e pre w) = Result.panicked p w1) :
    (FireEvent calls Receiver.ptr e w).invoked = invocations (pre ++ [c]) e ∧
      (FireEvent calls Receiver.ptr e w).invoked.length = pre.length + 1 ∧
      (FireEvent calls Receiver.ptr e w).result = Result.panicked p w1 ∧
      (∀ (evsw : Receiver) (w2 : World EventCallback State) (q : Panic),
        (FireEvent calls evsw e w2).result.panic = some q →
        ∃ cell ∈ w2.evsw.listeners, ∃ w0, (calls cell.cb e w0).panic = some q) ∧
      (∀ (evsw : Receiver) (w2 : World EventCallback State),
        (∀ cell ∈ w2.evsw.listeners, ∀ w0, (calls cell.cb e w0).panic = none) →
        (FireEvent calls evsw e w2).result.panic = none) := by
  have horigin : ∀ (evsw : Receiver) (w2 : World EventCallback State) (q : Panic),
      (FireEvent calls evsw e w2).result.panic = some q →
      ∃ cell ∈ w2.evsw.listeners, ∃ w0, (calls cell.cb e w0).panic = some q := by
    intro evsw w2 q hq
    cases evsw with
    | nil => simp [FireEvent, Result.panic] at hq
    | ptr =>
      rw [FireEvent_ptr] at hq
      exact fireLoop_panic_origin calls e q _ _ hq
  have hfire : FireEvent calls Receiver.ptr e w
      = { invoked := invocations (pre ++ [c]) e, result := Result.panicked p w1 } := by
    rw [FireEvent_ptr, hcells, fireLoop_append calls e (c :: post) pre w hpre, fireLoop, hc]
    simp [invocations]
  refine ⟨by rw [hfire], by rw [hfire]; simp [invocations], by rw [hfire], horigin, ?_⟩
  intro evsw w2 hnone
  cases hres : (FireEvent calls evsw e w2).result.panic with
  | none => rfl
  | some q =>
    obtain ⟨cell, hmem, w0, h0⟩ := horigin evsw w2 q hres
    rw [hnone cell hmem w0] at h0
    cases h0

/-- C4 on a registry of three cells whose second callback panics with `"boom"`: the
first two cells are called, the third is not, and `FireEvent` ends with `"boom"`. -/
theorem c4_fail_fast_witness :
    (failingSwitch.listeners
        = [⟨"a", Sample.logger⟩] ++ ⟨"f", Sample.failing⟩ :: [⟨"b", Sample.logger⟩]) ∧
      (∀ pre1 d pre2, [(⟨"a", Sample.logger⟩ : listenCell Sample)] = pre1 ++ d :: pre2 →
        (sampleCalls d.cb 5 (runAll sampleCalls 5 pre1
          { evsw := failingSwitch, ext := [] })).panic = none) ∧
      (sampleCalls Sample.failing 5
          (runAll sampleCalls 5 [⟨"a", Sample.logger⟩] { evsw := failingSwitch, ext := [] })
        = Result.panicked "boom" { evsw := failingSwitch, ext := [5] }) ∧
      (FireEvent sampleCalls Receiver.ptr 5 { evsw := failingSwitch, ext := [] }).invoked
        = [⟨⟨"a", Sample.logger⟩, 5⟩, ⟨⟨"f", Sample.failing⟩, 5⟩] ∧
      (FireEvent sampleCalls Receiver.ptr 5 { evsw := failingSwitch, ext := [] }).result
        = Result.panicked "boom" { evsw := failingSwitch, ext := [5] } :=
  have h1 : failingSwitch.listeners
      = [⟨"a", Sample.logger⟩] ++ ⟨"f", Sample.failing⟩ :: [⟨"b", Sample.logger⟩] := rfl
  have h2 : ∀ pre1 d pre2, [(⟨"a", Sample.logger⟩ : listenCell Sample)] = pre1 ++ d :: pre2 →
      (sampleCalls d.cb 5 (runAll sampleCalls 5 pre1
        { evsw := failingSwitch, ext := [] })).panic = none := by
    intro pre1 d pre2 h
    cases pre1 with
    | nil =>
      simp only [List.nil_append, List.cons.injEq] at h
      obtain ⟨rfl, _⟩ := h
      rfl
    | cons a rest =>
      simp only [List.cons_append, List.cons.injEq] at h
      have := h.2
      simp at this
  have h3 : sampleCalls Sample.failing 5
      (runAll sampleCalls 5 [⟨"a", Sample.logger⟩] { evsw := failingSwitch, ext := [] })
        = Result.panicked "boom" { evsw := failingSwitch, ext := [5] } := rfl
  ⟨h1, h2, h3,
    (c4_fail_fast sampleCalls 5 { evsw := failingSwitch, ext := [] }
      { evsw := failingSwitch, ext := [5] } [⟨"a", Sample.logger⟩] [⟨"b", Sample.logger⟩]
      ⟨"f", Sample.failing⟩ "boom" h1 h2 h3).1,
    (c4_fail_fast sampleCalls 5 { evsw := failingSwitch, ext := [] }
      { evsw := failingSwitch, ext := [5] } [⟨"a", Sample.logger⟩] [⟨"b", Sample.logger⟩]
      ⟨"f", Sample.failing⟩ "boom" h1 h2 h3).2.2.1⟩

/-! ## The nil switch and duplicate identities -/

/-- C5: on the pointer returned by `NilEventSwitch()`, `FireEvent(e)` returns normally for
every event, every world and every behaviour of the callbacks (also callbacks that would
panic): it makes no call, leaves the world as it is and raises no panic; what it does is
the same whatever registry the world holds. -/
theorem c5_nil_switch [Inhabited EventCallback]
    (calls : Calls EventCallback Event State Panic) (e : Event)
    (w : World EventCallback State) :
    FireEvent calls NilEventSwitch e w = { invoked := [], result := Result.returned w } ∧
      (FireEvent calls NilEventSwitch e w).invoked = [] ∧
      (FireEvent calls NilEventSwitch e w).result.panic = none ∧
      (FireEvent calls NilEventSwitch e w).result.world = w ∧
      (∀ cells : List (listenCell EventCallback),
        (FireEvent calls NilEventSwitch e
            { w with evsw := { w.evsw with listeners := cells } }).invoked = [] ∧
        (FireEvent calls NilEventSwitch e
            { w with evsw := { w.evsw with listeners := cells } }).result.panic = none) :=
  ⟨rfl, rfl, rfl, rfl, fun _ => ⟨rfl, rfl⟩⟩

/-- C6: `AddListener` has no failing path and does not deduplicate.  On any registry,
`AddListener(id, cb1)` then `AddListener(id, cb2)` gives the old registry followed by the
cells `(id, cb1)`, `(id, cb2)`: two cells more, the old ones untouched, also when the
identity or the callbacks were registered before.  A following `FireEvent` in which no
callback panics calls the old cells and then both new ones; one `RemoveListener(id)`
afterwards removes both (and every older cell of identity `id`). -/
theorem c6_duplicate_identity [Inhabited EventCallback]
    (calls : Calls EventCallback Event State Panic) (evsw : eventSwitch EventCallback)
    (id : String) (cb1 cb2 : EventCallback) (e : Event) (x : State) :
    (AddListener (AddListener evsw id cb1) id cb2).listeners
        = evsw.listeners ++ [{ listenerID := id, cb := cb1 }, { listenerID := id, cb := cb2 }] ∧
      (AddListener (AddListener evsw id cb1) id cb2).listeners.length
        = evsw.listeners.length + 2 ∧
      (AddListener (AddListener evsw id cb1) id cb2).BaseService = evsw.BaseService ∧
      ((∀ cell ∈ (AddListener (AddListener evsw id cb1) id cb2).listeners,
          ∀ w0, (calls cell.cb e w0).panic = none) →
        (FireEvent calls Receiver.ptr e
            { evsw := AddListener (AddListener evsw id cb1) id cb2, ext := x }).invoked
          = invocations evsw.listeners e
              ++ [{ cell := { listenerID := id, cb := cb1 }, event := e },
                  { cell := { listenerID := id, cb := cb2 }, event := e }]) ∧
      (RemoveListener (AddListener (AddListener evsw id cb1) id cb2) id).listeners
        = evsw.listeners.filter (fun cell => decide (cell.listenerID ≠ id)) ∧
      (∀ cell ∈ (RemoveListener (AddListener (AddListener evsw id cb1) id cb2) id).listeners,
        cell.listenerID ≠ id) := by
  have hL : (AddListener (AddListener evsw id cb1) id cb2).listeners
      = evsw.listeners ++ [{ listenerID := id, cb := cb1 }, { listenerID := id, cb := cb2 }] := by
    simp [AddListener]
  have hR : (RemoveListener (AddListener (AddListener evsw id cb1) id cb2) id).listeners
      = evsw.listeners.filter (fun cell => decide (cell.listenerID ≠ id)) := by
    rw [RemoveListener_listeners, hL]
    simp [List.filter_cons]
  refine ⟨hL, by rw [hL]; simp, rfl, ?_, hR, ?_⟩
  · intro hreturn
    rw [FireEvent_ptr, fireLoop_all_return _ _ _ _ hreturn]
    simp only [hL]
    simp [invocations]
  · intro cell hcell
    rw [hR, List.mem_filter] at hcell
    simpa using hcell.2

/-- C6 on a registry that already holds a cell of the identity and of the callback. -/
theorem c6_duplicate_identity_witness :
    (∀ cell ∈ (AddListener (AddListener smallSwitch "a" Sample.logger) "a" Sample.adder).listeners,
        ∀ w0, (sampleCalls cell.cb 9 w0).panic = none) ∧
      (AddListener (AddListener smallSwitch "a" Sample.logger) "a" Sample.adder).listeners
        = [⟨"a", Sample.logger⟩, ⟨"b", Sample.adder⟩, ⟨"a", Sample.logger⟩, ⟨"a", Sample.adder⟩] ∧
      (FireEvent sampleCalls Receiver.ptr 9
          { evsw := AddListener (AddListener smallSwitch "a" Sample.logger) "a" Sample.adder,
            ext := [] }).invoked
        = [⟨⟨"a", Sample.logger⟩, 9⟩, ⟨⟨"b", Sample.adder⟩, 9⟩, ⟨⟨"a", Sample.logger⟩, 9⟩,
            ⟨⟨"a", Sample.adder⟩, 9⟩] ∧
      (RemoveListener (AddListener (AddListener smallSwitch "a" Sample.logger) "a" Sample.adder)
          "a").listeners
        = [⟨"b", Sample.adder⟩] :=
  have h : ∀ cell ∈
      (AddListener (AddListener smallSwitch "a" Sample.logger) "a" Sample.adder).listeners,
      ∀ w0, (sampleCalls cell.cb 9 w0).panic = none := by
    intro cell hcell w0
    simp only [AddListener, smallSwitch, List.cons_append, List.nil_append, List.mem_cons,
      List.mem_singleton, List.not_mem_nil, or_false] at hcell
    rcases hcell with rfl | rfl | rfl | rfl <;> rfl
  ⟨h,
    (c6_duplicate_identity sampleCalls smallSwitch "a" Sample.logger Sample.adder 9 []).1.trans
      (by decide),
    ((c6_duplicate_identity sampleCalls smallSwitch "a" Sample.logger Sample.adder 9 []).2.2.2.1
      h).trans (by decide),
    (c6_duplicate_identity sampleCalls smallSwitch "a" Sample.logger Sample.adder 9
      []).2.2.2.2.1.trans (by decide)⟩

/-! ## The scenario, the lifecycle and the hooks -/

/-- C8: on a fresh switch from `NewEventSwitch`, with `x` and `y` callbacks that append
the event they receive to their own log, the sequence `FireEvent(A)`;
`AddListener("x", x)`; `FireEvent(B)`; `AddListener("y", y)`; `FireEvent(C)` ends with the
log of `x` equal to `[B, C]` and the log of `y` equal to `[C]`, for all events `A`, `B`,
`C`.  The first `FireEvent(A)`, with no listener, makes no call, changes nothing and
returns; the second calls `x` only, the third calls `x` then `y`, and none panics. -/
theorem c8_concrete_scenario (A B C : Event) :
    scenarioFireA A = { invoked := [], result := Result.returned scenarioStart } ∧
      (scenarioFireB A B).invoked = [⟨⟨"x", Logger.x⟩, B⟩] ∧
      (scenarioFireB A B).result.panic = none ∧
      (scenarioFireC A B C).invoked = [⟨⟨"x", Logger.x⟩, C⟩, ⟨⟨"y", Logger.y⟩, C⟩] ∧
      (scenarioFireC A B C).result.panic = none ∧
      (scenarioFireC A B C).result.world.ext.x = [B, C] ∧
      (scenarioFireC A B C).result.world.ext.y = [C] := by
  have hA : scenarioFireA A = { invoked := [], result := Result.returned scenarioStart } := by
    simp [scenarioFireA, FireEvent_ptr, scenarioStart, NewEventSwitch, fireLoop]
  have hB : scenarioFireB A B
      = { invoked := [⟨⟨"x", Logger.x⟩, B⟩],
          result := Result.returned
            { evsw := { BaseService := NewBaseService, listeners := [⟨"x", Logger.x⟩] },
              ext := { x := [B], y := [] } } } := by
    simp [scenarioFireB, hA, FireEvent_ptr, scenarioStart, NewEventSwitch, AddListener,
      fireLoop, loggerCalls, Result.world]
  have hC : scenarioFireC A B C
      = { invoked := [⟨⟨"x", Logger.x⟩, C⟩, ⟨⟨"y", Logger.y⟩, C⟩],
          result := Result.returned
            { evsw := { BaseService := NewBaseService,
                        listeners := [⟨"x", Logger.x⟩, ⟨"y", Logger.y⟩] },
              ext := { x := [B, C], y := [C] } } } := by
    simp [scenarioFireC, hB, FireEvent_ptr, AddListener, fireLoop, loggerCalls, Result.world]
  refine ⟨hA, ?_, ?_, ?_, ?_, ?_, ?_⟩
  · rw [hB]
  · rw [hB]; rfl
  · rw [hC]
  · rw [hC]; rfl
  · rw [hC]; rfl
  · rw [hC]; rfl

/-- C9: no method consults the lifecycle state.  `FireEvent(e)` started with the
lifecycle state set to any `s` (`Created`, `Running` or `Stopped`) makes the same calls in
the same order as in the state the switch was in, on either receiver: so it is when no
callback of the registry panics, whatever the callbacks do with the lifecycle state, and so
it is for callbacks that neither read nor write the lifecycle state, which then also end
the same way (return, or the same panic) and leave the same world up to that state.
`AddListener` and `RemoveListener` give the same registry in every lifecycle state, the
state of a fresh unstarted switch included, and leave the state as it is. -/
theorem c9_lifecycle_not_checked [Inhabited EventCallback]
    (calls : Calls EventCallback Event State Panic) (evsw : Receiver) (e : Event)
    (w : World EventCallback State) (s : Lifecycle) (id : String) (cb : EventCallback) :
    ((∀ cell ∈ w.evsw.listeners, ∀ w0, (calls cell.cb e w0).panic = none) →
        (FireEvent calls evsw e (setLifecycle s w)).invoked
          = (FireEvent calls evsw e w).invoked) ∧
      ((∀ c ev s0 w0,
          calls c ev (setLifecycle s0 w0) = (calls c ev w0).onWorld (setLifecycle s0)) →
        (FireEvent calls evsw e (setLifecycle s w)).invoked
            = (FireEvent calls evsw e w).invoked ∧
          (FireEvent calls evsw e (setLifecycle s w)).result
            = (FireEvent calls evsw e w).result.onWorld (setLifecycle s) ∧
          (FireEvent calls evsw e (setLifecycle s w)).result.panic
            = (FireEvent calls evsw e w).result.panic) ∧
      (AddListener (setLifecycle s w).evsw id cb).listeners
        = (AddListener w.evsw id cb).listeners ∧
      (AddListener (setLifecycle s w).evsw id cb).BaseService = { lifecycle := s } ∧
      (AddListener w.evsw id cb).BaseService = w.evsw.BaseService ∧
      (RemoveListener (setLifecycle s w).evsw id).listeners
        = (RemoveListener w.evsw id).listeners ∧
      (RemoveListener (setLifecycle s w).evsw id).BaseService = { lifecycle := s } ∧
      (RemoveListener w.evsw id).BaseService = w.evsw.BaseService := by
  refine ⟨?_, ?_, rfl, rfl, rfl, rfl, rfl, rfl⟩
  · intro hreturn
    cases evsw with
    | nil => rfl
    | ptr =>
      rw [FireEvent_ptr, FireEvent_ptr]
      have hcells : (setLifecycle s w).evsw.listeners = w.evsw.listeners := rfl
      rw [hcells, fireLoop_all_return _ _ _ _ hreturn, fireLoop_all_return _ _ _ _ hreturn]
  · intro hblind
    have hfire : FireEvent calls evsw e (setLifecycle s w)
        = { invoked := (FireEvent calls evsw e w).invoked,
            result := (FireEvent calls evsw e w).result.onWorld (setLifecycle s) } := by
      cases evsw with
      | nil => rfl
      | ptr =>
        rw [FireEvent_ptr, FireEvent_ptr]
        exact fireLoop_setLifecycle calls e s hblind _ w
    refine ⟨by rw [hfire], by rw [hfire], ?_⟩
    rw [hfire]
    cases (FireEvent calls evsw e w).result <;> rfl

/-- C9 on a switch of two cells whose callbacks return, and on a switch whose second
callback panics, both moved from `Created` to `Stopped`. -/
theorem c9_lifecycle_not_checked_witness :
    ((∀ cell ∈ ({ evsw := smallSwitch, ext := [] } : World Sample (List Nat)).evsw.listeners,
        ∀ w0, (sampleCalls cell.cb 4 w0).panic = none) ∧
      (FireEvent sampleCalls Receiver.ptr 4
          (setLifecycle Lifecycle.Stopped { evsw := smallSwitch, ext := [] })).invoked
        = (FireEvent sampleCalls Receiver.ptr 4 { evsw := smallSwitch, ext := [] }).invoked) ∧
      ((∀ c ev s0 w0,
          sampleCalls c ev (setLifecycle s0 w0)
            = (sampleCalls c ev w0).onWorld (setLifecycle s0)) ∧
        (FireEvent sampleCalls Receiver.ptr 4
            (setLifecycle Lifecycle.Stopped { evsw := failingSwitch, ext := [] })).invoked
          = (FireEvent sampleCalls Receiver.ptr 4
              { evsw := failingSwitch, ext := [] }).invoked) ∧
      (FireEvent sampleCalls Receiver.ptr 4
          (setLifecycle Lifecycle.Stopped { evsw := failingSwitch, ext := [] })).invoked
        = [⟨⟨"a", Sample.logger⟩, 4⟩, ⟨⟨"f", Sample.failing⟩, 4⟩] :=
  have h1 : ∀ cell ∈ ({ evsw := smallSwitch, ext := [] } : World Sample (List Nat)).evsw.listeners,
      ∀ w0, (sampleCalls cell.cb 4 w0).panic = none := by
    intro cell hcell w0
    simp only [smallSwitch, List.mem_cons, List.mem_singleton, List.not_mem_nil,
      or_false] at hcell
    rcases hcell with rfl | rfl <;> rfl
  have h2 : ∀ c ev s0 w0,
      sampleCalls c ev (setLifecycle s0 w0)
        = (sampleCalls c ev w0).onWorld (setLifecycle s0) := by
    intro c ev s0 w0
    cases c <;> rfl
  ⟨⟨h1,
      (c9_lifecycle_not_checked sampleCalls Receiver.ptr 4 { evsw := smallSwitch, ext := [] }
        Lifecycle.Stopped "n" Sample.logger).1 h1⟩,
    ⟨h2,
      ((c9_lifecycle_not_checked sampleCalls Receiver.ptr 4
        { evsw := failingSwitch, ext := [] } Lifecycle.Stopped "n" Sample.logger).2.1 h2).1⟩,
    by decide⟩

/-- C10: the hooks do no work.  `OnStart` returns the nil error and `OnStop` returns, for
every receiver and every world (any registry, any lifecycle state); neither makes a
callback call, and both leave the world, so the listener registry, as it was. -/
theorem c10_hooks_do_nothing (evsw : Receiver) (w : World EventCallback State) :
    (OnStart Event Panic evsw w).1 = none ∧
      (OnStart Event Panic evsw w).2.invoked = [] ∧
      (OnStart Event Panic evsw w).2.result = Result.returned w ∧
      (OnStart Event Panic evsw w).2.result.world.evsw.listeners = w.evsw.listeners ∧
      (OnStop Event Panic evsw w).invoked = [] ∧
      (OnStop Event Panic evsw w).result = Result.returned w ∧
      (OnStop Event Panic evsw w).result.world.evsw.listeners = w.evsw.listeners :=
  ⟨rfl, rfl, rfl, rfl, rfl, rfl, rfl⟩

end Events
